import Mathlib

/-!
Verification of the `egl::Context` contract of `src/src/GLES2/libEGL/Context.hpp`
(SwiftShader's EGL context boundary).  The header declares an abstract interface

  virtual void destroy() = 0;
  virtual void bindTexImage(Surface *surface) = 0;
  virtual EGLenum validateSharedImage(EGLenum target, GLuint name, GLuint textureLevel) = 0;
  virtual gl::Image *createSharedImage(EGLenum target, GLuint name, GLuint textureLevel) = 0;

with no implementation in the repository snapshot, so the behaviour of the four
operations, of the Texture Registry, of the Surface Binder and of the Image
Store is modelled from the specification; the argument and result types (EGLenum
target codes, GLuint names and levels, nullable Image pointers) come from the
header itself.
-/

namespace EGLCtx

/-- Modelled from the spec: the closed error enumeration returned to callers
(spec section 6); the header only fixes the carrier to `EGLenum`. -/
inductive EGLResult where
  | Success
  | InvalidState
  | InvalidSurface
  | InvalidTarget
  | InvalidName
  | InvalidLevel
deriving DecidableEq, Repr

/-- Modelled from the spec: the two texture-target namespaces (2D and cube map)
of the Texture Registry, section 3 and 4.2. -/
inductive TexClass where
  | twoD
  | cube
deriving DecidableEq, Repr

/-- Modelled from the spec: a caller-supplied target code, either the 2D texture
target, one of the six cube-map face targets, or an unrecognized code. -/
inductive Target where
  | texture2D
  | cubeFace (f : Fin 6)
  | other (code : Nat)
deriving DecidableEq, Repr

/-- Modelled from the spec: a mip level's pixel store — width, height, an
optional pixel format ("format is set" means `some`), and the pixel data. -/
structure PixelStore where
  width : Nat
  height : Nat
  format : Option Nat
  data : List Nat
deriving DecidableEq, Repr

/-- Modelled from the spec: a mip level is either backed by its own pixel store
or surface-backed (section 4.3), remembering the pre-binding store so `unbind`
could revert it. -/
inductive LevelState where
  | stored (ps : PixelStore)
  | surfaceBacked (sid : Nat) (saved : Option PixelStore)
deriving DecidableEq, Repr

/-- Modelled from the spec: a texture is a 2D texture with an ordered sequence
of mip levels, or a cube map with six faces of mip levels. -/
inductive Texture where
  | tex2D (levels : List LevelState)
  | texCube (faces : List (List LevelState))
deriving DecidableEq, Repr

/-- Modelled from the spec: a Surface, an external drawing target of which the
core only consumes the backing-buffer handle (dimensions and pixels), a pixel
format, and a destroyed flag. -/
structure Surface where
  destroyed : Bool
  buffer : Option (Nat × Nat)
  format : Nat
  data : List Nat
deriving DecidableEq, Repr

/-- Modelled from the spec: the snapshot of a texture level handed to the Image
Store by `createSharedImage` (copy-on-share semantics, section 4.1). -/
structure Snapshot where
  width : Nat
  height : Nat
  format : Nat
  data : List Nat
deriving DecidableEq, Repr

/-- Modelled from the spec: the identity of a texture level, the "exact
Texture+level" key under which the Image Store tracks snapshots. -/
structure ImageKey where
  cls : TexClass
  name : Nat
  face : Nat
  level : Nat
deriving DecidableEq, Repr

/-- Modelled from the spec: a shared Image — tracked snapshot plus its key and
reference count (section 3, Image). -/
structure Image where
  key : ImageKey
  snap : Snapshot
  refCount : Nat
deriving DecidableEq, Repr

/-- Modelled from the spec: the Image Store, owning reference-counted Images
addressed by numeric handles, with a fresh-handle counter. -/
structure ImageStore where
  images : List (Nat × Image)
  nextId : Nat
deriving DecidableEq, Repr

/-- Modelled from the spec: full state of one Context — destruction flag,
Texture Registry, the live Surfaces, the Surface Binder's per-unit bindings,
the current bound texture unit, the per-unit bound texture name, and the Image
Store reachable from this Context. -/
structure State where
  destroyed : Bool
  textures : List ((TexClass × Nat) × Texture)
  surfaces : List (Nat × Surface)
  bindings : List (Nat × Nat)
  currentUnit : Nat
  unitTexture : List (Nat × Nat)
  store : ImageStore
deriving DecidableEq, Repr

/-- Association-list lookup used by the registry, binder and store. -/
def alookup {κ α : Type} [DecidableEq κ] : List (κ × α) → κ → Option α
  | [], _ => none
  | (k, v) :: rest, key => if k = key then some v else alookup rest key

/-- Modelled from the spec: which (class, face) a recognized target code names;
`none` for a target that is not a recognized texture target. -/
def classOfTarget : Target → Option (TexClass × Fin 6)
  | .texture2D => some (.twoD, ⟨0, by decide⟩)
  | .cubeFace f => some (.cube, f)
  | .other _ => none

/-- Mip-level sequence of the requested face (a 2D texture has one sequence). -/
def faceLevels : Texture → Fin 6 → List LevelState
  | .tex2D ls, _ => ls
  | .texCube fs, f => fs.getD f.val []

/-- Modelled from the spec: the pixel view of one level state — a stored level
is visible when its format is set; a surface-backed level is visible through
the live surface's backing buffer. -/
def levelView (surfaces : List (Nat × Surface)) : LevelState → Option Snapshot
  | .stored ps =>
    match ps.format with
    | some f => some ⟨ps.width, ps.height, f, ps.data⟩
    | none => none
  | .surfaceBacked sid _ =>
    match alookup surfaces sid with
    | some s =>
      if s.destroyed then none
      else
        match s.buffer with
        | some (w, h) => some ⟨w, h, s.format, s.data⟩
        | none => none
    | none => none

/-- Modelled from the spec: cube-map sibling check — all six faces at the level
share the dimensions of the requested face (section 4.2). -/
def cubeShareOK (surfaces : List (Nat × Surface)) (tex : Texture) (lvl w h : Nat) : Bool :=
  match tex with
  | .tex2D _ => true
  | .texCube fs =>
    fs.length == 6 &&
      fs.all (fun faceLs =>
        match faceLs.get? lvl with
        | some ls =>
          match levelView surfaces ls with
          | some sn => sn.width == w && sn.height == h
          | none => false
        | none => false)

/-- Modelled from the spec: the completeness check plus snapshot extraction — a
level is complete iff it exists, width>0, height>0, format is set, and for cube
maps all six faces at that level share dimensions; on success the snapshot of
its current pixel store is produced. -/
def levelSnapshot (surfaces : List (Nat × Surface)) (tex : Texture) (face : Fin 6)
    (lvl : Nat) : Option Snapshot :=
  match (faceLevels tex face).get? lvl with
  | none => none
  | some ls =>
    match levelView surfaces ls with
    | none => none
    | some snap =>
      if 0 < snap.width && 0 < snap.height && cubeShareOK surfaces tex lvl snap.width snap.height
      then some snap
      else none

/-- Modelled from the spec: `Context::validateSharedImage` — pure query, no
mutation: destroyed context, unrecognized target, unknown name, and missing or
incomplete level map to the error taxonomy of section 4.1. -/
def validateSharedImage (st : State) (t : Target) (name level : Nat) : EGLResult :=
  if st.destroyed then .InvalidState
  else
    match classOfTarget t with
    | none => .InvalidTarget
    | some (cls, face) =>
      match alookup st.textures (cls, name) with
      | none => .InvalidName
      | some tex =>
        if (levelSnapshot st.surfaces tex face level).isSome then .Success else .InvalidLevel

/-- Modelled from the spec: `ImageStore.acquire` worker — finds the first Image
tracking an identical snapshot for the exact same Texture+level and increments
its reference count in place. -/
def acqGo (k : ImageKey) (s : Snapshot) : List (Nat × Image) → Option (Nat × List (Nat × Image))
  | [] => none
  | (i, img) :: rest =>
    if img.key = k ∧ img.snap = s then
      some (i, (i, { img with refCount := img.refCount + 1 }) :: rest)
    else
      match acqGo k s rest with
      | some (j, rest2) => some (j, (i, img) :: rest2)
      | none => none

/-- Modelled from the spec: `ImageStore.acquire` — returns an existing Image if
an identical snapshot is already tracked for that exact Texture+level, else
allocates a new one; always increments the reference count on return. -/
def acquire (st : ImageStore) (k : ImageKey) (s : Snapshot) : Nat × ImageStore :=
  match acqGo k s st.images with
  | some (i, imgs) => (i, { st with images := imgs })
  | none => (st.nextId, ⟨st.images ++ [(st.nextId, ⟨k, s, 1⟩)], st.nextId + 1⟩)

/-- Modelled from the spec: `ImageStore.release` worker — decrements the
reference count of the named Image, deallocating it when the count reaches
zero. -/
def relGo (id : Nat) : List (Nat × Image) → List (Nat × Image)
  | [] => []
  | (i, img) :: rest =>
    if i = id then
      if img.refCount ≤ 1 then rest
      else (i, { img with refCount := img.refCount - 1 }) :: rest
    else (i, img) :: relGo id rest

/-- Modelled from the spec: `ImageStore.release` — decrements the reference
count; at zero, deallocates the backing storage. -/
def release (st : ImageStore) (id : Nat) : ImageStore :=
  { st with images := relGo id st.images }

/-- Reference count the store currently records for a handle (0 if absent). -/
def refCountOf (st : ImageStore) (id : Nat) : Nat :=
  match alookup st.images id with
  | some img => img.refCount
  | none => 0

/-- Pixel contents observable through a shared-image handle. -/
def imageContents (st : ImageStore) (id : Nat) : Option (List Nat) :=
  match alookup st.images id with
  | some img => some img.snap.data
  | none => none

/-- Modelled from the spec: `Context::createSharedImage` — performs the
identical validation as `validateSharedImage`; on failure returns a null
handle, the same error and an unchanged state; on success asks the Image Store
to acquire an Image wrapping the level's current pixel-store snapshot. -/
def createSharedImage (st : State) (t : Target) (name level : Nat) :
    Option Nat × EGLResult × State :=
  if st.destroyed then (none, .InvalidState, st)
  else
    match classOfTarget t with
    | none => (none, .InvalidTarget, st)
    | some (cls, face) =>
      match alookup st.textures (cls, name) with
      | none => (none, .InvalidName, st)
      | some tex =>
        match levelSnapshot st.surfaces tex face level with
        | none => (none, .InvalidLevel, st)
        | some snap =>
          let res := acquire st.store ⟨cls, name, face.val, level⟩ snap
          (some res.1, .Success, { st with store := res.2 })

/-- Modelled from the spec: `Context::destroy` — releases the context-owned
textures, detaches bound Surfaces without destroying them and transitions to
Destroyed; on an already-destroyed Context it fails cleanly with
`InvalidState` and changes nothing. -/
def destroy (st : State) : EGLResult × State :=
  if st.destroyed then (.InvalidState, st)
  else (.Success, { st with destroyed := true, textures := [], bindings := [], unitTexture := [] })

/-- Saved pixel store a level would revert to when a surface is unbound. -/
def savedStoreOf : LevelState → Option PixelStore
  | .stored ps => some ps
  | .surfaceBacked _ sv => sv

/-- In-place update of the n-th element of a list (identity off the end). -/
def modifyNth {α : Type} (f : α → α) : Nat → List α → List α
  | _, [] => []
  | 0, a :: as => f a :: as
  | n + 1, a :: as => a :: modifyNth f n as

/-- Replaces level 0 of a 2D texture by a surface-backed level. -/
def surfaceBackTex (sid : Nat) : Texture → Texture
  | .tex2D ls => .tex2D (modifyNth (fun old => .surfaceBacked sid (savedStoreOf old)) 0 ls)
  | t => t

/-- Modelled from the spec: the Surface Binder marks level 0 of the 2D texture
bound to the unit as surface-backed, so validation reads the surface's live
buffer dimensions. -/
def markSurfaceBacked (st : State) (unit sid : Nat) : State :=
  match alookup st.unitTexture unit with
  | none => st
  | some name =>
    { st with
      textures := st.textures.map (fun e =>
        if e.1 = (TexClass.twoD, name) then (e.1, surfaceBackTex sid e.2) else e) }

/-- Removes every binding of the given unit from the binder's table. -/
def eraseBind : List (Nat × Nat) → Nat → List (Nat × Nat)
  | [], _ => []
  | (u, s) :: rest, unit => if u = unit then eraseBind rest unit else (u, s) :: eraseBind rest unit

/-- Modelled from the spec: `SurfaceBinder.bind` — detaches any previous
binding of the unit (without destroying the previous Surface) and installs
the new one, marking the corresponding texture level as surface-backed. -/
def bindSurface (st : State) (sid unit : Nat) : State :=
  let st1 := markSurfaceBacked st unit sid
  { st1 with bindings := (unit, sid) :: eraseBind st1.bindings unit }

/-- Modelled from the spec: `Context::bindTexImage` — `InvalidState` on a
destroyed Context; `InvalidSurface` when the surface is null, unknown, already
destroyed or has no valid backing buffer; otherwise delegates to the Surface
Binder on the current texture unit. -/
def bindTexImage (st : State) (sOpt : Option Nat) : EGLResult × State :=
  if st.destroyed then (.InvalidState, st)
  else
    match sOpt with
    | none => (.InvalidSurface, st)
    | some sid =>
      match alookup st.surfaces sid with
      | none => (.InvalidSurface, st)
      | some s =>
        if s.destroyed then (.InvalidSurface, st)
        else
          match s.buffer with
          | none => (.InvalidSurface, st)
          | some _ => (.Success, bindSurface st sid st.currentUnit)

/-- Overwrite of a stored level's pixel data (surface-backed levels keep their
surface). -/
def setLevelData (d : List Nat) : LevelState → LevelState
  | .stored ps => .stored { ps with data := d }
  | ls => ls

/-- Overwrite of one level's pixel data inside a texture. -/
def writeTexLevel (tex : Texture) (face lvl : Nat) (d : List Nat) : Texture :=
  match tex with
  | .tex2D ls => .tex2D (modifyNth (setLevelData d) lvl ls)
  | .texCube fs => .texCube (modifyNth (modifyNth (setLevelData d) lvl) face fs)

/-- Modelled from the spec: a subsequent write to a source Texture's pixel
data — mutates only the Texture Registry, never the Image Store. -/
def writeTexturePixels (st : State) (cls : TexClass) (name face lvl : Nat) (d : List Nat) : State :=
  { st with
    textures := st.textures.map (fun e =>
      if e.1 = (cls, name) then (e.1, writeTexLevel e.2 face lvl d) else e) }

/-- Modelled from the spec: the claim's wording of level completeness — the
level exists, its pixel view is available (format set, live surface), its
dimensions are positive, and for cube maps all six sibling faces share them. -/
def LevelComplete (surfaces : List (Nat × Surface)) (tex : Texture) (face : Fin 6)
    (lvl : Nat) : Prop :=
  ∃ ls snap, (faceLevels tex face).get? lvl = some ls ∧ levelView surfaces ls = some snap ∧
    0 < snap.width ∧ 0 < snap.height ∧
    cubeShareOK surfaces tex lvl snap.width snap.height = true

/-- Unsigned 32-bit GL handle type taken by the header's interface. -/
abbrev GLuint := Fin (2 ^ 32)

/-- Conversion of an arbitrary integer argument to GLuint, wrapping modulo
2^32 as C unsigned conversion does. -/
def glCast (z : Int) : GLuint :=
  ⟨(z % (2 ^ 32 : Int)).toNat, by
    have h1 : z % (2 ^ 32 : Int) < 2 ^ 32 := Int.emod_lt_of_pos z (by norm_num)
    have h2 : (0 : Int) ≤ z % (2 ^ 32 : Int) := Int.emod_nonneg z (by norm_num)
    omega⟩

/-- The header's exact argument typing: name and textureLevel are GLuint. -/
def validateSharedImageGL (st : State) (t : Target) (name textureLevel : GLuint) : EGLResult :=
  validateSharedImage st t name.val textureLevel.val

/-- The header's exact argument typing for createSharedImage. -/
def createSharedImageGL (st : State) (t : Target) (name textureLevel : GLuint) :
    Option Nat × EGLResult × State :=
  createSharedImage st t name.val textureLevel.val

/-- Reference count recorded for a handle in a raw image list (0 if absent). -/
def refAt (imgs : List (Nat × Image)) (i : Nat) : Nat :=
  match alookup imgs i with
  | some img => img.refCount
  | none => 0

/-- Well-formed handle bookkeeping of the Image Store: handles are unique and
below the fresh-handle counter. -/
def StoreKeysWF (s : ImageStore) : Prop :=
  (s.images.map Prod.fst).Nodup ∧ ∀ p ∈ s.images, p.1 < s.nextId

/-- Full Image Store invariant: every live Image has a positive reference
count, and handle bookkeeping is well formed. -/
def StoreWF (s : ImageStore) : Prop :=
  (∀ p ∈ s.images, 1 ≤ p.2.refCount) ∧ (s.images.map Prod.fst).Nodup ∧
    ∀ p ∈ s.images, p.1 < s.nextId

/-- Modelled from the spec: the Image Store's external operations — acquire a
snapshot or release a handle. -/
inductive StoreOp where
  | acq (k : ImageKey) (sn : Snapshot)
  | rel (id : Nat)

/-- One Image Store operation applied to a store. -/
def applyOp (s : ImageStore) : StoreOp → ImageStore
  | .acq k sn => (acquire s k sn).2
  | .rel id => release s id

/-- A sequence of acquire/release operations applied in order. -/
def runOps (s : ImageStore) (ops : List StoreOp) : ImageStore :=
  ops.foldl applyOp s

/-- The Image Store with no Images and no handles ever issued. -/
def emptyStore : ImageStore := ⟨[], 0⟩

/-- Dimensions validation would use for a (target, name, level) triple. -/
def levelDimsOf (st : State) (t : Target) (n l : Nat) : Option (Nat × Nat) :=
  match classOfTarget t with
  | none => none
  | some (cls, face) =>
    match alookup st.textures (cls, n) with
    | none => none
    | some tex =>
      match levelSnapshot st.surfaces tex face l with
      | some snap => some (snap.width, snap.height)
      | none => none

/-- Binder invariant: at most one Surface is bound to each texture unit. -/
def BindingsWF (st : State) : Prop :=
  (st.bindings.map Prod.fst).Nodup

/-! ### Sample states used by the closed witnesses -/

/-- Empty Image Store. -/
def sampleStore : ImageStore := ⟨[], 0⟩

/-- A 2D texture with one complete 64×64 level. -/
def sampleTexture : Texture := .tex2D [.stored ⟨64, 64, some 5, [1, 2, 3]⟩]

/-- A live surface with a 32×32 backing buffer. -/
def sampleSurface : Surface := ⟨false, some (32, 32), 1, [9, 9]⟩

/-- A second live surface with a 32×16 backing buffer. -/
def sampleSurface2 : Surface := ⟨false, some (32, 16), 1, [4]⟩

/-- A live context owning texture name 7 under the 2D target. -/
def sampleState : State :=
  ⟨false, [((.twoD, 7), sampleTexture)], [(1, sampleSurface)], [], 0, [(0, 7)], sampleStore⟩

/-- The sample context after its destruction flag is set. -/
def sampleDestroyed : State := { sampleState with destroyed := true }

/-- A live context whose unit 0 already has surface 1 bound. -/
def sampleBound : State :=
  ⟨false, [((.twoD, 7), sampleTexture)], [(1, sampleSurface), (2, sampleSurface2)],
    [(0, 1)], 0, [(0, 7)], sampleStore⟩

/-- Key of the sample texture's level 0. -/
def sampleKey : ImageKey := ⟨.twoD, 7, 0, 0⟩

/-- Snapshot of the sample texture's level 0. -/
def sampleSnap : Snapshot := ⟨64, 64, 5, [1, 2, 3]⟩

/-- A store holding one Image with reference count 1. -/
def oneStore : ImageStore := ⟨[(0, ⟨sampleKey, sampleSnap, 1⟩)], 1⟩

end EGLCtx

namespace EGLCtx

/-! ### Helper lemmas shared between the claim theorems -/

lemma levelSnapshot_complete_iff (surfaces : List (Nat × Surface)) (tex : Texture)
    (face : Fin 6) (lvl : Nat) :
    (∃ snap, levelSnapshot surfaces tex face lvl = some snap) ↔
      LevelComplete surfaces tex face lvl := by
  unfold levelSnapshot LevelComplete
  cases hg : (faceLevels tex face).get? lvl with
  | none => simp
  | some ls =>
    cases hv : levelView surfaces ls with
    | none => simp [hv]
    | some snap =>
      simp only [hv]
      by_cases hw : 0 < snap.width
      · by_cases hh : 0 < snap.height
        · by_cases hcube : cubeShareOK surfaces tex lvl snap.width snap.height = true
          · simp only [hw, hh, hcube]
            simp
            exact ⟨snap, hv, hw, hh, hcube⟩
          · simp [hw, hh, hcube]
            intro x hx
            rw [hv] at hx
            obtain rfl : snap = x := by injection hx
            intro _ _
            simpa using hcube
        · simp [hh]
          intro x hx
          rw [hv] at hx
          obtain rfl : snap = x := by injection hx
          intro _ hxh
          exact absurd hxh hh
      · simp [hw]
        intro x hx
        rw [hv] at hx
        obtain rfl : snap = x := by injection hx
        intro hxw
        exact absurd hxw hw

lemma create_result_code (st : State) (t : Target) (n l : Nat) :
    (createSharedImage st t n l).2.1 = validateSharedImage st t n l := by
  unfold createSharedImage validateSharedImage
  by_cases hd : st.destroyed
  · simp [hd]
  · cases hc : classOfTarget t with
    | none => simp [hd, hc]
    | some cf =>
      obtain ⟨cls, face⟩ := cf
      cases ht : alookup st.textures (cls, n) with
      | none => simp [hd, hc, ht]
      | some tex =>
        cases hs : levelSnapshot st.surfaces tex face l with
        | none => simp [hd, hc, ht, hs]
        | some snap => simp [hd, hc, ht, hs]

lemma create_fail (st : State) (t : Target) (n l : Nat)
    (h : validateSharedImage st t n l ≠ .Success) :
    createSharedImage st t n l = (none, validateSharedImage st t n l, st) := by
  unfold createSharedImage validateSharedImage
  unfold validateSharedImage at h
  by_cases hd : st.destroyed
  · simp [hd]
  · cases hc : classOfTarget t with
    | none => simp [hd, hc]
    | some cf =>
      obtain ⟨cls, face⟩ := cf
      cases ht : alookup st.textures (cls, n) with
      | none => simp [hd, hc, ht]
      | some tex =>
        cases hs : levelSnapshot st.surfaces tex face l with
        | none => simp [hd, hc, ht, hs]
        | some snap =>
          exact absurd (by simp [hd, hc, ht, hs]) h

end EGLCtx

namespace EGLCtx

/-- C1: validateSharedImage returns Success exactly when the triple names an
existing texture of the Context whose requested mip level exists and is
complete (width>0, height>0, format set, and for cube maps all six faces at
that level share dimensions); otherwise it returns InvalidTarget when the
target is not a recognized texture target, InvalidName when no texture with
that name exists for that target, and InvalidLevel when the level is out of
range or not complete. -/
theorem validateSharedImage_taxonomy (st : State) (t : Target) (n l : Nat)
    (h : st.destroyed = false) :
    (validateSharedImage st t n l = .Success ↔
      ∃ cls face tex, classOfTarget t = some (cls, face) ∧
        alookup st.textures (cls, n) = some tex ∧
        LevelComplete st.surfaces tex face l) ∧
    (validateSharedImage st t n l = .InvalidTarget ↔ classOfTarget t = none) ∧
    (validateSharedImage st t n l = .InvalidName ↔
      ∃ cls face, classOfTarget t = some (cls, face) ∧
        alookup st.textures (cls, n) = none) ∧
    (validateSharedImage st t n l = .InvalidLevel ↔
      ∃ cls face tex, classOfTarget t = some (cls, face) ∧
        alookup st.textures (cls, n) = some tex ∧
        ¬ LevelComplete st.surfaces tex face l) := by
  unfold validateSharedImage
  cases hc : classOfTarget t with
  | none => simp [h, hc]
  | some cf =>
    obtain ⟨cls, face⟩ := cf
    cases ht : alookup st.textures (cls, n) with
    | none => simp [h, hc, ht]
    | some tex =>
      by_cases hS : (levelSnapshot st.surfaces tex face l).isSome
      · have hLC : LevelComplete st.surfaces tex face l :=
          (levelSnapshot_complete_iff st.surfaces tex face l).mp
            (Option.isSome_iff_exists.mp hS)
        simp [h, hc, ht, hS, hLC]
        exact ⟨cls, face, ⟨rfl, rfl⟩, tex, ht, hLC⟩
      · have hnLC : ¬ LevelComplete st.surfaces tex face l := by
          intro hlc
          obtain ⟨snap, hsnap⟩ := (levelSnapshot_complete_iff st.surfaces tex face l).mpr hlc
          exact hS (by simp [hsnap])
        simp [h, hc, ht, hS, hnLC]
        exact ⟨cls, face, ⟨rfl, rfl⟩, tex, ht, hnLC⟩

/-- Closed witness for C1 at the scenario input (target 2D, name 7, level 0). -/
theorem validateSharedImage_taxonomy_witness :
    validateSharedImage sampleState .texture2D 7 0 = .Success ↔
      ∃ cls face tex, classOfTarget .texture2D = some (cls, face) ∧
        alookup sampleState.textures (cls, 7) = some tex ∧
        LevelComplete sampleState.surfaces tex face 0 :=
  (validateSharedImage_taxonomy sampleState .texture2D 7 0 rfl).1

/-- C2: createSharedImage performs the identical validation as
validateSharedImage — whenever validation would return a non-success code, it
returns a null handle, reports the same error and leaves the state unchanged. -/
theorem createSharedImage_identical_validation (st : State) (t : Target) (n l : Nat)
    (h : validateSharedImage st t n l ≠ .Success) :
    (createSharedImage st t n l).2.1 = validateSharedImage st t n l ∧
    createSharedImage st t n l = (none, validateSharedImage st t n l, st) :=
  ⟨create_result_code st t n l, create_fail st t n l h⟩

/-- Closed witness for C2 at an unknown texture name. -/
theorem createSharedImage_identical_validation_witness :
    (createSharedImage sampleState .texture2D 8 0).2.1 =
      validateSharedImage sampleState .texture2D 8 0 ∧
    createSharedImage sampleState .texture2D 8 0 =
      (none, validateSharedImage sampleState .texture2D 8 0, sampleState) :=
  createSharedImage_identical_validation sampleState .texture2D 8 0 (by decide)

/-- C5: after destroy() has moved a Context to the Destroyed state, every
subsequent operation — including a second destroy() — fails with InvalidState,
leaving the state (in particular the Image Store) untouched. -/
theorem destroyed_context_rejects (st : State) (h : st.destroyed = true) :
    destroy st = (.InvalidState, st) ∧
    (∀ sOpt, bindTexImage st sOpt = (.InvalidState, st)) ∧
    (∀ t : Target, ∀ n l : Nat, validateSharedImage st t n l = .InvalidState) ∧
    (∀ t : Target, ∀ n l : Nat, createSharedImage st t n l = (none, .InvalidState, st)) ∧
    (∀ st0 : State, ((destroy st0).2).destroyed = true) := by
  refine ⟨?_, ?_, ?_, ?_, ?_⟩
  · simp [destroy, h]
  · intro sOpt; simp [bindTexImage, h]
  · intro t n l; simp [validateSharedImage, h]
  · intro t n l; simp [createSharedImage, h]
  · intro st0
    by_cases h0 : st0.destroyed
    · simp [destroy, h0]
    · simp [destroy, h0]

/-- Closed witness for C5 on the destroyed sample context. -/
theorem destroyed_context_rejects_witness :
    destroy sampleDestroyed = (.InvalidState, sampleDestroyed) ∧
    validateSharedImage sampleDestroyed .texture2D 7 0 = .InvalidState :=
  ⟨(destroyed_context_rejects sampleDestroyed rfl).1,
   (destroyed_context_rejects sampleDestroyed rfl).2.2.1 .texture2D 7 0⟩

/-- C6: on every validation failure, validateSharedImage and createSharedImage
mutate no state — createSharedImage returns a null handle with the unchanged
state, and a triple absent from the registry yields InvalidName with no
allocation. -/
theorem failed_validation_no_mutation (st : State) (t : Target) (n l : Nat)
    (h : validateSharedImage st t n l ≠ .Success) :
    createSharedImage st t n l = (none, validateSharedImage st t n l, st) ∧
    (∀ cls face, st.destroyed = false → classOfTarget t = some (cls, face) →
      alookup st.textures (cls, n) = none →
      validateSharedImage st t n l = .InvalidName ∧
      createSharedImage st t n l = (none, .InvalidName, st)) := by
  refine ⟨create_fail st t n l h, ?_⟩
  intro cls face hd hc ht
  have hval : validateSharedImage st t n l = .InvalidName := by
    simp [validateSharedImage, hd, hc, ht]
  refine ⟨hval, ?_⟩
  have h2 := create_fail st t n l h
  rw [hval] at h2
  exact h2

/-- Closed witness for C6 at an unknown texture name. -/
theorem failed_validation_no_mutation_witness :
    validateSharedImage sampleState .texture2D 8 0 = .InvalidName ∧
    createSharedImage sampleState .texture2D 8 0 = (none, .InvalidName, sampleState) :=
  (failed_validation_no_mutation sampleState .texture2D 8 0 (by decide)).2
    TexClass.twoD ⟨0, by decide⟩ rfl (by decide) (by decide)

/-- C8: bindTexImage fails with InvalidSurface on a null, unknown, destroyed
or buffer-less surface, with InvalidState on a destroyed Context, leaves the
state unchanged in each failure, and its result always lies in the closed
error enumeration. -/
theorem bindTexImage_error_taxonomy (st : State) :
    (st.destroyed = true → ∀ sOpt, bindTexImage st sOpt = (.InvalidState, st)) ∧
    (st.destroyed = false → bindTexImage st none = (.InvalidSurface, st)) ∧
    (st.destroyed = false → ∀ sid, alookup st.surfaces sid = none →
      bindTexImage st (some sid) = (.InvalidSurface, st)) ∧
    (st.destroyed = false → ∀ sid s, alookup st.surfaces sid = some s →
      (s.destroyed = true ∨ s.buffer = none) →
      bindTexImage st (some sid) = (.InvalidSurface, st)) ∧
    (∀ sOpt, (bindTexImage st sOpt).1 = .Success ∨ (bindTexImage st sOpt).1 = .InvalidState ∨
      (bindTexImage st sOpt).1 = .InvalidSurface ∨ (bindTexImage st sOpt).1 = .InvalidTarget ∨
      (bindTexImage st sOpt).1 = .InvalidName ∨ (bindTexImage st sOpt).1 = .InvalidLevel) := by
  refine ⟨?_, ?_, ?_, ?_, ?_⟩
  · intro h sOpt; simp [bindTexImage, h]
  · intro h; simp [bindTexImage, h]
  · intro h sid hs; simp [bindTexImage, h, hs]
  · intro h sid s hs hbad
    rcases hbad with hb | hb
    · simp [bindTexImage, h, hs, hb]
    · by_cases hd2 : s.destroyed
      · simp [bindTexImage, h, hs, hd2]
      · simp [bindTexImage, h, hs, hd2, hb]
  · intro sOpt
    cases hres : (bindTexImage st sOpt).1 <;> simp

/-- Closed witness for C8: bindTexImage(null) on the live sample context. -/
theorem bindTexImage_error_taxonomy_witness :
    bindTexImage sampleState none = (.InvalidSurface, sampleState) :=
  (bindTexImage_error_taxonomy sampleState).2.1 rfl

/-- C10: at the public interface the name and textureLevel arguments are
GLuint — every call receives a nonnegative value below 2^32, negative names or
levels are unrepresentable, and a caller passing a negative value sees it
wrapped modulo 2^32. -/
theorem gluint_interface (st : State) (t : Target) :
    (∀ z : Int, ((glCast z).val : Int) = z % 2 ^ 32 ∧ (glCast z).val < 2 ^ 32) ∧
    (∀ name textureLevel : GLuint, name.val < 2 ^ 32 ∧ textureLevel.val < 2 ^ 32 ∧
      validateSharedImageGL st t name textureLevel =
        validateSharedImage st t name.val textureLevel.val ∧
      createSharedImageGL st t name textureLevel =
        createSharedImage st t name.val textureLevel.val) ∧
    (∀ z w : Int, validateSharedImageGL st t (glCast z) (glCast w) =
      validateSharedImage st t (z % 2 ^ 32).toNat (w % 2 ^ 32).toNat) := by
  refine ⟨?_, ?_, ?_⟩
  · intro z
    refine ⟨?_, (glCast z).isLt⟩
    have h2 : (0 : Int) ≤ z % (2 ^ 32 : Int) := Int.emod_nonneg z (by norm_num)
    show (((z % (2 ^ 32 : Int)).toNat : Nat) : Int) = z % 2 ^ 32
    exact Int.toNat_of_nonneg h2
  · intro name textureLevel
    exact ⟨name.isLt, textureLevel.isLt, rfl, rfl⟩
  · intro z w
    rfl

end EGLCtx

namespace EGLCtx

lemma alookup_eq_none_of_not_mem {κ α : Type} [DecidableEq κ]
    (l : List (κ × α)) (k : κ) (h : k ∉ l.map Prod.fst) : alookup l k = none := by
  induction l with
  | nil => rfl
  | cons p rest ih =>
    obtain ⟨a, b⟩ := p
    simp only [List.map_cons, List.mem_cons] at h
    push_neg at h
    simp only [alookup]
    rw [if_neg (fun e => h.1 e.symm)]
    exact ih h.2

lemma alookup_append_sngl {κ α : Type} [DecidableEq κ]
    (l : List (κ × α)) (k : κ) (v : α) (h : k ∉ l.map Prod.fst) :
    alookup (l ++ [(k, v)]) k = some v := by
  induction l with
  | nil => simp [alookup]
  | cons p rest ih =>
    obtain ⟨a, b⟩ := p
    simp only [List.map_cons, List.mem_cons] at h
    push_neg at h
    simp only [List.cons_append, alookup]
    rw [if_neg (fun e => h.1 e.symm)]
    exact ih h.2

lemma acqGo_none_append (k : ImageKey) (sn : Snapshot) (c n : Nat) :
    ∀ imgs : List (Nat × Image), acqGo k sn imgs = none →
      acqGo k sn (imgs ++ [(n, ⟨k, sn, c⟩)]) =
        some (n, imgs ++ [(n, ⟨k, sn, c + 1⟩)]) := by
  intro imgs
  induction imgs with
  | nil =>
    intro _
    simp [acqGo]
  | cons p rest ih =>
    obtain ⟨j, img⟩ := p
    intro h
    have hm : ¬(img.key = k ∧ img.snap = sn) := by
      intro hm
      unfold acqGo at h
      rw [if_pos hm] at h
      exact absurd h (by simp)
    unfold acqGo at h
    rw [if_neg hm] at h
    have hrest : acqGo k sn rest = none := by
      cases hr : acqGo k sn rest with
      | none => rfl
      | some pr =>
        obtain ⟨i2, r2⟩ := pr
        rw [hr] at h
        exact absurd h (by simp)
    simp only [List.cons_append]
    unfold acqGo
    rw [if_neg hm, ih hrest]

lemma acqGo_twice (k : ImageKey) (sn : Snapshot) :
    ∀ imgs : List (Nat × Image), (imgs.map Prod.fst).Nodup →
    ∀ i imgs2, acqGo k sn imgs = some (i, imgs2) →
      ∃ imgs3, acqGo k sn imgs2 = some (i, imgs3) ∧
        i ∈ imgs.map Prod.fst ∧
        imgs2.map Prod.fst = imgs.map Prod.fst ∧
        alookup imgs2 i = some ⟨k, sn, refAt imgs i + 1⟩ ∧
        alookup imgs3 i = some ⟨k, sn, refAt imgs i + 2⟩ := by
  intro imgs
  induction imgs with
  | nil =>
    intro _ i imgs2 h
    simp [acqGo] at h
  | cons p rest ih =>
    obtain ⟨j, img⟩ := p
    intro hnd i imgs2 h
    by_cases hm : img.key = k ∧ img.snap = sn
    · obtain ⟨hk, hs⟩ := hm
      unfold acqGo at h
      rw [if_pos ⟨hk, hs⟩] at h
      simp only [Option.some.injEq, Prod.mk.injEq] at h
      obtain ⟨rfl, rfl⟩ := h
      refine ⟨(j, { img with refCount := img.refCount + 2 }) :: rest, ?_, ?_, rfl, ?_, ?_⟩
      · simp [acqGo, hk, hs]
      · simp
      · simp [alookup, refAt, hk, hs]
      · simp [alookup, refAt, hk, hs]
    · unfold acqGo at h
      rw [if_neg hm] at h
      cases hrest : acqGo k sn rest with
      | none =>
        rw [hrest] at h
        exact absurd h (by simp)
      | some pr =>
        obtain ⟨i2, rest2⟩ := pr
        rw [hrest] at h
        simp only [Option.some.injEq, Prod.mk.injEq] at h
        obtain ⟨rfl, rfl⟩ := h
        rw [List.map_cons, List.nodup_cons] at hnd
        obtain ⟨rest3, h2, himem, hkeys, hl2, hl3⟩ := ih hnd.2 i2 rest2 hrest
        have hji : j ≠ i2 := fun e => hnd.1 (e ▸ himem)
        refine ⟨(j, img) :: rest3, ?_, ?_, ?_, ?_, ?_⟩
        · unfold acqGo
          rw [if_neg hm, h2]
        · simp [himem]
        · simp [hkeys]
        · simp only [alookup, if_neg hji]
          rw [hl2]
          simp only [refAt, alookup, if_neg hji]
        · simp only [alookup, if_neg hji]
          rw [hl3]
          simp only [refAt, alookup, if_neg hji]

/-- Pixel contents and reference counting of two identical acquire calls. -/
lemma acquire_pair (s : ImageStore) (k : ImageKey) (sn : Snapshot)
    (h : StoreKeysWF s) :
    ∃ i s1 s2, acquire s k sn = (i, s1) ∧ acquire s1 k sn = (i, s2) ∧
      imageContents s1 i = some sn.data ∧
      refCountOf s2 i = refCountOf s i + 2 := by
  cases hgo : acqGo k sn s.images with
  | none =>
    have hmem : s.nextId ∉ s.images.map Prod.fst := by
      intro hmem
      obtain ⟨p, hp, hp1⟩ := List.mem_map.mp hmem
      exact absurd (hp1 ▸ h.2 p hp) (lt_irrefl _)
    have hgo2 := acqGo_none_append k sn 1 s.nextId s.images hgo
    refine ⟨s.nextId, ⟨s.images ++ [(s.nextId, ⟨k, sn, 1⟩)], s.nextId + 1⟩,
      ⟨s.images ++ [(s.nextId, ⟨k, sn, 2⟩)], s.nextId + 1⟩, ?_, ?_, ?_, ?_⟩
    · simp [acquire, hgo]
    · simp [acquire, hgo2]
    · simp [imageContents, alookup_append_sngl s.images s.nextId _ hmem]
    · have hnone : alookup s.images s.nextId = none :=
        alookup_eq_none_of_not_mem s.images s.nextId hmem
      simp [refCountOf, alookup_append_sngl s.images s.nextId _ hmem, hnone]
  | some pr =>
    obtain ⟨i, imgs2⟩ := pr
    obtain ⟨imgs3, h2, himem, hkeys, hl2, hl3⟩ := acqGo_twice k sn s.images h.1 i imgs2 hgo
    refine ⟨i, { s with images := imgs2 }, { s with images := imgs3 }, ?_, ?_, ?_, ?_⟩
    · simp [acquire, hgo]
    · simp [acquire, h2]
    · simp [imageContents, hl2]
    · simp [refCountOf, hl2, hl3, refAt]

end EGLCtx

namespace EGLCtx

lemma validate_success_parts (st : State) (t : Target) (n l : Nat)
    (h : validateSharedImage st t n l = .Success) :
    st.destroyed = false ∧ ∃ cls face tex snap, classOfTarget t = some (cls, face) ∧
      alookup st.textures (cls, n) = some tex ∧
      levelSnapshot st.surfaces tex face l = some snap := by
  by_cases hd : st.destroyed
  · have hx : validateSharedImage st t n l = .InvalidState := by
      simp [validateSharedImage, hd]
    rw [hx] at h
    exact absurd h (by simp)
  · refine ⟨by simpa using hd, ?_⟩
    cases hc : classOfTarget t with
    | none =>
      have hx : validateSharedImage st t n l = .InvalidTarget := by
        simp [validateSharedImage, hd, hc]
      rw [hx] at h
      exact absurd h (by simp)
    | some cf =>
      obtain ⟨cls, face⟩ := cf
      cases ht : alookup st.textures (cls, n) with
      | none =>
        have hx : validateSharedImage st t n l = .InvalidName := by
          simp [validateSharedImage, hd, hc, ht]
        rw [hx] at h
        exact absurd h (by simp)
      | some tex =>
        cases hs : levelSnapshot st.surfaces tex face l with
        | none =>
          have hx : validateSharedImage st t n l = .InvalidLevel := by
            simp [validateSharedImage, hd, hc, ht, hs]
          rw [hx] at h
          exact absurd h (by simp)
        | some snap => exact ⟨cls, face, tex, snap, rfl, ht, hs⟩

lemma create_success_parts (st : State) (t : Target) (n l : Nat) (id : Nat) (st1 : State)
    (h : createSharedImage st t n l = (some id, .Success, st1)) :
    ∃ cls face tex snap s2, classOfTarget t = some (cls, face) ∧
      alookup st.textures (cls, n) = some tex ∧
      levelSnapshot st.surfaces tex face l = some snap ∧
      acquire st.store ⟨cls, n, face.val, l⟩ snap = (id, s2) ∧
      st1 = { st with store := s2 } := by
  by_cases hd : st.destroyed
  · have hx : createSharedImage st t n l = (none, .InvalidState, st) := by
      simp [createSharedImage, hd]
    rw [hx] at h
    exact absurd h (by simp)
  · cases hc : classOfTarget t with
    | none =>
      have hx : createSharedImage st t n l = (none, .InvalidTarget, st) := by
        simp [createSharedImage, hd, hc]
      rw [hx] at h
      exact absurd h (by simp)
    | some cf =>
      obtain ⟨cls, face⟩ := cf
      cases ht : alookup st.textures (cls, n) with
      | none =>
        have hx : createSharedImage st t n l = (none, .InvalidName, st) := by
          simp [createSharedImage, hd, hc, ht]
        rw [hx] at h
        exact absurd h (by simp)
      | some tex =>
        cases hs : levelSnapshot st.surfaces tex face l with
        | none =>
          have hx : createSharedImage st t n l = (none, .InvalidLevel, st) := by
            simp [createSharedImage, hd, hc, ht, hs]
          rw [hx] at h
          exact absurd h (by simp)
        | some snap =>
          have hx : createSharedImage st t n l =
              (some (acquire st.store ⟨cls, n, face.val, l⟩ snap).1, .Success,
                { st with store := (acquire st.store ⟨cls, n, face.val, l⟩ snap).2 }) := by
            simp [createSharedImage, hd, hc, ht, hs]
          rw [hx] at h
          simp only [Prod.mk.injEq, Option.some.injEq] at h
          obtain ⟨h1, -, h3⟩ := h
          exact ⟨cls, face, tex, snap, (acquire st.store ⟨cls, n, face.val, l⟩ snap).2,
            rfl, ht, hs, by rw [← h1], h3.symm⟩

/-- C3: for every complete texture level, two identical createSharedImage
calls with no intervening mutation return the same underlying Image handle,
with its reference count incremented by exactly 2 over the baseline. -/
theorem createSharedImage_idempotent_sharing (st : State) (t : Target) (n l : Nat)
    (hwf : StoreKeysWF st.store) (hv : validateSharedImage st t n l = .Success) :
    ∃ id st1 st2,
      createSharedImage st t n l = (some id, .Success, st1) ∧
      createSharedImage st1 t n l = (some id, .Success, st2) ∧
      refCountOf st2.store id = refCountOf st.store id + 2 := by
  obtain ⟨hd, cls, face, tex, snap, hc, ht, hs⟩ := validate_success_parts st t n l hv
  obtain ⟨i, s1, s2, ha1, ha2, hcont, hcount⟩ :=
    acquire_pair st.store ⟨cls, n, face.val, l⟩ snap hwf
  refine ⟨i, { st with store := s1 }, { st with store := s2 }, ?_, ?_, hcount⟩
  · simp [createSharedImage, hd, hc, ht, hs, ha1]
  · simp [createSharedImage, hd, hc, ht, hs, ha2]

/-- Closed witness for C3 at the scenario input (target 2D, name 7, level 0). -/
theorem createSharedImage_idempotent_sharing_witness :
    ∃ id st1 st2,
      createSharedImage sampleState .texture2D 7 0 = (some id, .Success, st1) ∧
      createSharedImage st1 .texture2D 7 0 = (some id, .Success, st2) ∧
      refCountOf st2.store id = refCountOf sampleState.store id + 2 :=
  createSharedImage_idempotent_sharing sampleState .texture2D 7 0
    ⟨by decide, by decide⟩ (by decide)

/-- C4: a successful createSharedImage returns a handle whose observed pixel
contents equal the source texture level's pixel data as of the call, and a
subsequent overwrite of any source Texture's pixel data leaves the handle's
observed contents unchanged (copy-on-share). -/
theorem createSharedImage_copy_on_share (st : State) (t : Target) (n l : Nat)
    (hwf : StoreKeysWF st.store) (id : Nat) (st1 : State)
    (h : createSharedImage st t n l = (some id, .Success, st1)) :
    (∃ cls face tex snap, classOfTarget t = some (cls, face) ∧
      alookup st.textures (cls, n) = some tex ∧
      levelSnapshot st.surfaces tex face l = some snap ∧
      imageContents st1.store id = some snap.data) ∧
    (∀ c2 : TexClass, ∀ nm fc lv : Nat, ∀ d : List Nat,
      imageContents ((writeTexturePixels st1 c2 nm fc lv d).store) id =
        imageContents st1.store id) := by
  constructor
  · obtain ⟨cls, face, tex, snap, s2, hc, ht, hs, hacq, hst1⟩ :=
      create_success_parts st t n l id st1 h
    obtain ⟨i, s1, s2b, ha1, ha2, hcont, hcount⟩ :=
      acquire_pair st.store ⟨cls, n, face.val, l⟩ snap hwf
    rw [ha1] at hacq
    simp only [Prod.mk.injEq] at hacq
    obtain ⟨rfl, rfl⟩ := hacq
    refine ⟨cls, face, tex, snap, hc, ht, hs, ?_⟩
    rw [hst1]
    exact hcont
  · intro c2 nm fc lv d
    rfl

/-- Closed witness for C4 at the scenario input. -/
theorem createSharedImage_copy_on_share_witness :
    (∃ cls face tex snap, classOfTarget .texture2D = some (cls, face) ∧
      alookup sampleState.textures (cls, 7) = some tex ∧
      levelSnapshot sampleState.surfaces tex face 0 = some snap ∧
      imageContents (createSharedImage sampleState .texture2D 7 0).2.2.store 0 =
        some snap.data) :=
  (createSharedImage_copy_on_share sampleState .texture2D 7 0 ⟨by decide, by decide⟩ 0
    (createSharedImage sampleState .texture2D 7 0).2.2 (by decide)).1

end EGLCtx

namespace EGLCtx

lemma acqGo_counts (k : ImageKey) (sn : Snapshot) :
    ∀ imgs : List (Nat × Image), ∀ i imgs2, acqGo k sn imgs = some (i, imgs2) →
      (∀ p ∈ imgs, 1 ≤ p.2.refCount) → ∀ p ∈ imgs2, 1 ≤ p.2.refCount := by
  intro imgs
  induction imgs with
  | nil => intro i imgs2 h; simp [acqGo] at h
  | cons q rest ih =>
    obtain ⟨j, img⟩ := q
    intro i imgs2 h hc p hp
    by_cases hm : img.key = k ∧ img.snap = sn
    · unfold acqGo at h
      rw [if_pos hm] at h
      simp only [Option.some.injEq, Prod.mk.injEq] at h
      obtain ⟨rfl, rfl⟩ := h
      rcases List.mem_cons.mp hp with rfl | hp2
      · simp
      · exact hc p (List.mem_cons_of_mem _ hp2)
    · unfold acqGo at h
      rw [if_neg hm] at h
      cases hrest : acqGo k sn rest with
      | none => rw [hrest] at h; exact absurd h (by simp)
      | some pr =>
        obtain ⟨i2, rest2⟩ := pr
        rw [hrest] at h
        simp only [Option.some.injEq, Prod.mk.injEq] at h
        obtain ⟨rfl, rfl⟩ := h
        rcases List.mem_cons.mp hp with rfl | hp2
        · exact hc _ (List.mem_cons_self _ _)
        · exact ih i2 rest2 hrest (fun q hq => hc q (List.mem_cons_of_mem _ hq)) p hp2

lemma acqGo_keys_eq (k : ImageKey) (sn : Snapshot) :
    ∀ imgs : List (Nat × Image), ∀ i imgs2, acqGo k sn imgs = some (i, imgs2) →
      imgs2.map Prod.fst = imgs.map Prod.fst := by
  intro imgs
  induction imgs with
  | nil => intro i imgs2 h; simp [acqGo] at h
  | cons q rest ih =>
    obtain ⟨j, img⟩ := q
    intro i imgs2 h
    by_cases hm : img.key = k ∧ img.snap = sn
    · unfold acqGo at h
      rw [if_pos hm] at h
      simp only [Option.some.injEq, Prod.mk.injEq] at h
      obtain ⟨rfl, rfl⟩ := h
      simp
    · unfold acqGo at h
      rw [if_neg hm] at h
      cases hrest : acqGo k sn rest with
      | none => rw [hrest] at h; exact absurd h (by simp)
      | some pr =>
        obtain ⟨i2, rest2⟩ := pr
        rw [hrest] at h
        simp only [Option.some.injEq, Prod.mk.injEq] at h
        obtain ⟨rfl, rfl⟩ := h
        simp [ih i2 rest2 hrest]

lemma relGo_keys_sublist (id : Nat) :
    ∀ imgs : List (Nat × Image),
      List.Sublist ((relGo id imgs).map Prod.fst) (imgs.map Prod.fst) := by
  intro imgs
  induction imgs with
  | nil => simp [relGo]
  | cons q rest ih =>
    obtain ⟨j, img⟩ := q
    by_cases hj : j = id
    · by_cases hr : img.refCount ≤ 1
      · simp only [relGo, if_pos hj, if_pos hr, List.map_cons]
        exact List.Sublist.cons _ (List.Sublist.refl _)
      · simp only [relGo, if_pos hj, if_neg hr, List.map_cons]
        exact List.Sublist.cons₂ _ (List.Sublist.refl _)
    · simp only [relGo, if_neg hj, List.map_cons]
      exact List.Sublist.cons₂ _ ih

lemma relGo_counts (id : Nat) :
    ∀ imgs : List (Nat × Image), (∀ p ∈ imgs, 1 ≤ p.2.refCount) →
      ∀ p ∈ relGo id imgs, 1 ≤ p.2.refCount := by
  intro imgs
  induction imgs with
  | nil => intro _ p hp; simp [relGo] at hp
  | cons q rest ih =>
    obtain ⟨j, img⟩ := q
    intro hc p hp
    by_cases hj : j = id
    · by_cases hr : img.refCount ≤ 1
      · rw [relGo, if_pos hj, if_pos hr] at hp
        exact hc p (List.mem_cons_of_mem _ hp)
      · rw [relGo, if_pos hj, if_neg hr] at hp
        rcases List.mem_cons.mp hp with rfl | hp2
        · simp only []
          omega
        · exact hc p (List.mem_cons_of_mem _ hp2)
    · rw [relGo, if_neg hj] at hp
      rcases List.mem_cons.mp hp with rfl | hp2
      · exact hc _ (List.mem_cons_self _ _)
      · exact ih (fun q hq => hc q (List.mem_cons_of_mem _ hq)) p hp2

lemma acquire_wf (s : ImageStore) (k : ImageKey) (sn : Snapshot)
    (h : StoreWF s) : StoreWF (acquire s k sn).2 := by
  obtain ⟨hcnt, hnd, hbnd⟩ := h
  cases hgo : acqGo k sn s.images with
  | none =>
    simp only [acquire, hgo]
    refine ⟨?_, ?_, ?_⟩
    · intro p hp
      rcases List.mem_append.mp hp with hp1 | hp2
      · exact hcnt p hp1
      · simp at hp2
        simp [hp2]
    · rw [List.map_append]
      rw [List.nodup_append]
      refine ⟨hnd, List.nodup_singleton _, ?_⟩
      intro a ha hb
      simp only [List.map_cons, List.map_nil, List.mem_singleton] at hb
      obtain ⟨p, hp, hp1⟩ := List.mem_map.mp ha
      subst hb
      exact absurd (hp1 ▸ hbnd p hp) (lt_irrefl _)
    · intro p hp
      rcases List.mem_append.mp hp with hp1 | hp2
      · exact Nat.lt_succ_of_lt (hbnd p hp1)
      · simp at hp2
        simp [hp2]
  | some pr =>
    obtain ⟨i, imgs2⟩ := pr
    simp only [acquire, hgo]
    have hkeys := acqGo_keys_eq k sn s.images i imgs2 hgo
    refine ⟨acqGo_counts k sn s.images i imgs2 hgo hcnt, ?_, ?_⟩
    · rw [hkeys]
      exact hnd
    · intro p hp
      have hmem : p.1 ∈ s.images.map Prod.fst := by
        rw [← hkeys]
        exact List.mem_map.mpr ⟨p, hp, rfl⟩
      obtain ⟨q, hq, hq1⟩ := List.mem_map.mp hmem
      exact hq1 ▸ hbnd q hq

lemma release_wf (s : ImageStore) (id : Nat) (h : StoreWF s) :
    StoreWF (release s id) := by
  obtain ⟨hcnt, hnd, hbnd⟩ := h
  refine ⟨relGo_counts id s.images hcnt, ?_, ?_⟩
  · exact List.Nodup.sublist (relGo_keys_sublist id s.images) hnd
  · intro p hp
    have hmem : p.1 ∈ s.images.map Prod.fst :=
      (relGo_keys_sublist id s.images).mem (List.mem_map.mpr ⟨p, hp, rfl⟩)
    obtain ⟨q, hq, hq1⟩ := List.mem_map.mp hmem
    exact hq1 ▸ hbnd q hq

lemma runOps_wf : ∀ ops : List StoreOp, ∀ s : ImageStore,
    StoreWF s → StoreWF (runOps s ops) := by
  intro ops
  induction ops with
  | nil => intro s h; exact h
  | cons op rest ih =>
    intro s h
    have hstep : runOps s (op :: rest) = runOps (applyOp s op) rest := rfl
    rw [hstep]
    cases op with
    | acq k sn => exact ih _ (acquire_wf s k sn h)
    | rel id => exact ih _ (release_wf s id h)

lemma relGo_dealloc (id : Nat) :
    ∀ imgs : List (Nat × Image), (imgs.map Prod.fst).Nodup →
      ∀ img : Image, alookup imgs id = some img → img.refCount ≤ 1 →
      alookup (relGo id imgs) id = none := by
  intro imgs
  induction imgs with
  | nil => intro _ img hl; simp [alookup] at hl
  | cons q rest ih =>
    obtain ⟨j, i2⟩ := q
    intro hnd img hl hr
    rw [List.map_cons, List.nodup_cons] at hnd
    by_cases hj : j = id
    · rw [alookup, if_pos hj] at hl
      obtain rfl : i2 = img := by injection hl
      rw [relGo, if_pos hj, if_pos hr]
      exact alookup_eq_none_of_not_mem rest id (hj ▸ hnd.1)
    · rw [alookup, if_neg hj] at hl
      rw [relGo, if_neg hj, alookup, if_neg hj]
      exact ih hnd.2 img hl hr

/-- C7: across every sequence of acquire and release operations an Image's
reference count never becomes negative (counts are natural and every live
Image keeps count ≥ 1, so no acquire ever observes a live count of zero), and
release of a count-1 Image deallocates it. -/
theorem imageStore_refcount_invariant :
    (∀ ops : List StoreOp, ∀ p ∈ (runOps emptyStore ops).images, 1 ≤ p.2.refCount) ∧
    (∀ s : ImageStore, StoreWF s → ∀ k : ImageKey, ∀ sn : Snapshot,
      ∀ p ∈ ((acquire s k sn).2).images, 1 ≤ p.2.refCount) ∧
    (∀ s : ImageStore, StoreWF s → ∀ id : Nat, ∀ img : Image,
      alookup s.images id = some img → img.refCount ≤ 1 →
      alookup ((release s id).images) id = none) := by
  refine ⟨?_, ?_, ?_⟩
  · intro ops p hp
    exact (runOps_wf ops emptyStore ⟨by simp [emptyStore], by simp [emptyStore],
      by simp [emptyStore]⟩).1 p hp
  · intro s hs k sn p hp
    exact (acquire_wf s k sn hs).1 p hp
  · intro s hs id img hl hr
    exact relGo_dealloc id s.images hs.2.1 img hl hr

/-- Closed witness for C7: an acquire/release trace from the empty store, and
deallocation of a count-1 Image. -/
theorem imageStore_refcount_invariant_witness :
    (∀ p ∈ (runOps emptyStore [StoreOp.acq sampleKey sampleSnap, StoreOp.rel 0]).images,
      1 ≤ p.2.refCount) ∧
    alookup ((release oneStore 0).images) 0 = none :=
  ⟨imageStore_refcount_invariant.1 [StoreOp.acq sampleKey sampleSnap, StoreOp.rel 0],
   imageStore_refcount_invariant.2.2 oneStore ⟨by decide, by decide, by decide⟩ 0
     ⟨sampleKey, sampleSnap, 1⟩ (by decide) (by decide)⟩

end EGLCtx

namespace EGLCtx

lemma eraseBind_not_mem (bs : List (Nat × Nat)) (u : Nat) :
    u ∉ (eraseBind bs u).map Prod.fst := by
  induction bs with
  | nil => simp [eraseBind]
  | cons p rest ih =>
    obtain ⟨a, b⟩ := p
    by_cases ha : a = u
    · rw [eraseBind, if_pos ha]
      exact ih
    · rw [eraseBind, if_neg ha]
      simp only [List.map_cons, List.mem_cons]
      push_neg
      exact ⟨fun e => ha e.symm, ih⟩

lemma eraseBind_keys_sublist (bs : List (Nat × Nat)) (u : Nat) :
    List.Sublist ((eraseBind bs u).map Prod.fst) (bs.map Prod.fst) := by
  induction bs with
  | nil => simp [eraseBind]
  | cons p rest ih =>
    obtain ⟨a, b⟩ := p
    by_cases ha : a = u
    · rw [eraseBind, if_pos ha]
      exact List.Sublist.cons _ ih
    · rw [eraseBind, if_neg ha]
      simp only [List.map_cons]
      exact List.Sublist.cons₂ _ ih

lemma alookup_map_update {κ α : Type} [DecidableEq κ]
    (l : List (κ × α)) (key : κ) (f : α → α) :
    alookup (l.map (fun e => if e.1 = key then (e.1, f e.2) else e)) key =
      (alookup l key).map f := by
  induction l with
  | nil => rfl
  | cons p rest ih =>
    obtain ⟨a, b⟩ := p
    by_cases ha : a = key
    · have hmap : (if (a, b).1 = key then ((a, b).1, f (a, b).2) else (a, b)) =
          ((a, f b) : κ × α) := by simp [ha]
      rw [List.map_cons, hmap]
      simp [alookup, ha]
    · have hmap : (if (a, b).1 = key then ((a, b).1, f (a, b).2) else (a, b)) =
          ((a, b) : κ × α) := by simp [ha]
      rw [List.map_cons, hmap]
      simp [alookup, ha, ih]

/-- C9: at most one Surface is bound per (Context, texture-unit) pair; binding
a new Surface to a unit that already has one replaces the binding without
touching the Surface table (the old Surface is not destroyed), and afterwards
validateSharedImage on that unit's texture succeeds with the newly bound
Surface's live buffer dimensions; no other operation adds bindings. -/
theorem bindTexImage_rebind (st : State) (u sid1 sid2 : Nat) (s2 : Surface)
    (w h name : Nat) (levels : List LevelState)
    (hd : st.destroyed = false)
    (hu : st.currentUnit = u)
    (hb1 : alookup st.bindings u = some sid1)
    (hs2 : alookup st.surfaces sid2 = some s2)
    (hs2d : s2.destroyed = false)
    (hs2b : s2.buffer = some (w, h))
    (hw : 0 < w) (hh : 0 < h)
    (hut : alookup st.unitTexture u = some name)
    (htex : alookup st.textures (TexClass.twoD, name) = some (Texture.tex2D levels))
    (hne : levels ≠ []) :
    (∃ st2, bindTexImage st (some sid2) = (.Success, st2) ∧
      alookup st2.bindings u = some sid2 ∧
      (st2.bindings.map Prod.fst).count u = 1 ∧
      st2.surfaces = st.surfaces ∧
      (BindingsWF st → BindingsWF st2) ∧
      validateSharedImage st2 .texture2D name 0 = .Success ∧
      levelDimsOf st2 .texture2D name 0 = some (w, h)) ∧
    (∀ st0 : State, ∀ t0 : Target, ∀ n0 l0 : Nat,
      ((createSharedImage st0 t0 n0 l0).2.2).bindings = st0.bindings) ∧
    (∀ st0 : State, BindingsWF st0 → BindingsWF ((destroy st0).2)) := by
  refine ⟨?_, ?_, ?_⟩
  · cases levels with
    | nil => exact absurd rfl hne
    | cons l0 lrest =>
      refine ⟨{ st with
          textures := st.textures.map (fun e =>
            if e.1 = (TexClass.twoD, name) then (e.1, surfaceBackTex sid2 e.2) else e),
          bindings := (u, sid2) :: eraseBind st.bindings u }, ?_, ?_, ?_, rfl, ?_, ?_, ?_⟩
      · simp [bindTexImage, hd, hs2, hs2d, hs2b, hu, bindSurface, markSurfaceBacked, hut]
      · simp [alookup]
      · have h0 : ((eraseBind st.bindings u).map Prod.fst).count u = 0 :=
          List.count_eq_zero.mpr (eraseBind_not_mem st.bindings u)
        simp [List.count_cons, h0]
      · intro hbw
        show ((((u, sid2) :: eraseBind st.bindings u)).map Prod.fst).Nodup
        rw [List.map_cons, List.nodup_cons]
        exact ⟨eraseBind_not_mem st.bindings u,
          List.Nodup.sublist (eraseBind_keys_sublist st.bindings u) hbw⟩
      · have hlook : alookup (st.textures.map (fun e =>
            if e.1 = (TexClass.twoD, name) then (e.1, surfaceBackTex sid2 e.2) else e))
              (TexClass.twoD, name) =
            some (Texture.tex2D (LevelState.surfaceBacked sid2 (savedStoreOf l0) :: lrest)) := by
          rw [alookup_map_update, htex]
          rfl
        have hsnap : levelSnapshot st.surfaces
            (Texture.tex2D (LevelState.surfaceBacked sid2 (savedStoreOf l0) :: lrest))
            (0 : Fin 6) 0 = some ⟨w, h, s2.format, s2.data⟩ := by
          simp [levelSnapshot, faceLevels, levelView, hs2, hs2d, hs2b, cubeShareOK, hw, hh]
        simp [validateSharedImage, classOfTarget, hd, hlook, hsnap]
      · have hlook : alookup (st.textures.map (fun e =>
            if e.1 = (TexClass.twoD, name) then (e.1, surfaceBackTex sid2 e.2) else e))
              (TexClass.twoD, name) =
            some (Texture.tex2D (LevelState.surfaceBacked sid2 (savedStoreOf l0) :: lrest)) := by
          rw [alookup_map_update, htex]
          rfl
        have hsnap : levelSnapshot st.surfaces
            (Texture.tex2D (LevelState.surfaceBacked sid2 (savedStoreOf l0) :: lrest))
            (0 : Fin 6) 0 = some ⟨w, h, s2.format, s2.data⟩ := by
          simp [levelSnapshot, faceLevels, levelView, hs2, hs2d, hs2b, cubeShareOK, hw, hh]
        simp [levelDimsOf, classOfTarget, hlook, hsnap]
  · intro st0 t0 n0 l0
    by_cases hd0 : st0.destroyed
    · simp [createSharedImage, hd0]
    · cases hc0 : classOfTarget t0 with
      | none => simp [createSharedImage, hd0, hc0]
      | some cf =>
        obtain ⟨cls0, face0⟩ := cf
        cases ht0 : alookup st0.textures (cls0, n0) with
        | none => simp [createSharedImage, hd0, hc0, ht0]
        | some tex0 =>
          cases hs0 : levelSnapshot st0.surfaces tex0 face0 l0 with
          | none => simp [createSharedImage, hd0, hc0, ht0, hs0]
          | some snap0 => simp [createSharedImage, hd0, hc0, ht0, hs0]
  · intro st0 hbw
    by_cases hd0 : st0.destroyed
    · simpa [destroy, hd0] using hbw
    · simp [destroy, hd0, BindingsWF]

/-- Closed witness for C9: rebinding unit 0 from surface 1 to surface 2. -/
theorem bindTexImage_rebind_witness :
    ∃ st2, bindTexImage sampleBound (some 2) = (.Success, st2) ∧
      alookup st2.bindings 0 = some 2 ∧
      (st2.bindings.map Prod.fst).count 0 = 1 ∧
      st2.surfaces = sampleBound.surfaces ∧
      (BindingsWF sampleBound → BindingsWF st2) ∧
      validateSharedImage st2 .texture2D 7 0 = .Success ∧
      levelDimsOf st2 .texture2D 7 0 = some (32, 16) :=
  (bindTexImage_rebind sampleBound 0 1 2 sampleSurface2 32 16 7
    [.stored ⟨64, 64, some 5, [1, 2, 3]⟩] rfl rfl (by decide) (by decide) rfl rfl
    (by decide) (by decide) (by decide) (by decide) (by decide)).1

end EGLCtx
